import Mathlib

/-!
Verification of the resilience and accounting layer of the
steam-playtime-farmer repository, as a shallow embedding in Lean.

Times, seconds and delays are modelled as rationals; JavaScript / C#
dictionaries are modelled as functions into `Option`; the `setTimeout` queue of the Node event loop is modelled as an explicit count of pending timer
callbacks together with an event trace.

Embedded modules:
* `EventManager`      — src/modules/event-manager.js
* `SteamClientMod`    — src/modules/steam-client.js (the farming list)
* `SessionManager`    — src/unnamed/part_009 (session-manager.js)
* `ConnectionManager` — src/modules/connection-manager.js
* `SteamAccount`      — src/steam-playtime-farmer/SteamAccount.cs
-/

namespace EventManager

/-- The keys of the `eventHandlers` object literal (event-manager.js lines
12-20). Any other event name is absent from the registry. -/
def recognizedEvents : List String :=
  ["loggedOn", "steamGuard", "error", "disconnected",
   "reconnecting", "reconnected", "reconnectFailed"]

/-- The handler registry: each present event name owns an ordered list of
handler identifiers; a name that is not a key of the object yields `none`
(JavaScript `undefined`). -/
def Registry : Type := String → Option (List Nat)

/-- The registry as `createEventManager` builds it: the seven recognized
events map to empty handler arrays, every other name is absent. -/
def initialRegistry : Registry :=
  fun e => if e ∈ recognizedEvents then some [] else none

/-- Embedding of `on(event, handler)` (lines 29-43): push the handler when
the event is a key of the registry, otherwise change nothing. Returns the
updated registry together with the removal closure, which erases the first
occurrence of the handler (indexOf / splice) when the event is a key. -/
def onEvent (reg : Registry) (event : String) (h : Nat) :
    Registry × (Registry → Registry) :=
  ((fun e => if e = event then (reg e).map (fun l => l ++ [h]) else reg e),
   (fun r e => if e = event then (r e).map (fun l => l.erase h) else r e))

/-- Embedding of `clear(event)` (lines 49-53). -/
def clear (reg : Registry) (event : String) : Registry :=
  fun e => if e = event then (reg e).map (fun _ => []) else reg e

/-- Embedding of `hasHandlers(event)` (lines 60-62): truthiness of
`eventHandlers[event] && eventHandlers[event].length > 0`. -/
def hasHandlers (reg : Registry) (event : String) : Bool :=
  match reg event with
  | some l => decide (l.length > 0)
  | none => false

/-- Embedding of `trigger(event, ...args)` (lines 69-79): the list of
handlers invoked, in order. A handler that throws is caught, so dispatch
itself never raises and always reaches every registered handler. -/
def trigger (reg : Registry) (event : String) : List Nat :=
  (reg event).getD []

/-- The registry invariant maintained by the module: event names outside
the recognized set are never keys. -/
def UnknownAbsent (reg : Registry) : Prop :=
  ∀ e, e ∉ recognizedEvents → reg e = none

theorem initialRegistry_unknownAbsent : UnknownAbsent initialRegistry := by
  intro e he
  simp [initialRegistry, he]

end EventManager

namespace SteamClientMod

/-- Embedding of `updateGamesPlayed()` (steam-client.js lines 258-294):
false when not logged on or when the farming list is empty, true on the
successful broadcast path. -/
def updateGamesPlayed (loggedOn : Bool) (games : List Int) : Bool :=
  if !loggedOn then false
  else if games.isEmpty then false
  else true

/-- Embedding of `addGame(appId)` (steam-client.js lines 447-457). The
input is the result of `Number.parseInt(appId)`: `none` models `NaN`.
Returns the boolean result of the call and the farming list afterwards. -/
def addGame (parsed : Option Int) (loggedOn : Bool) (games : List Int) :
    Bool × List Int :=
  match parsed with
  | none => (false, games)
  | some n =>
    if n ∈ games then (false, games)
    else (updateGamesPlayed loggedOn (games ++ [n]), games ++ [n])

end SteamClientMod

namespace SessionManager

/-- Opening brace character of a JSON object. -/
def lbrace : Char := Char.ofNat 123

/-- Closing brace character of a JSON object. -/
def rbrace : Char := Char.ofNat 125

/-- The double-quote character delimiting JSON strings. -/
def quoteChar : Char := Char.ofNat 34

/-- The session data saved by `saveSessionData` (steam-client.js lines
131-143): an object with the hex-encoded session key first and the account
name second, which is the order `JSON.stringify` keeps. -/
structure SessionData where
  sessionKey : List Char
  accountName : List Char
deriving DecidableEq

/-- Literal opening the serialized object, up to the value of the key field. -/
def litKey : List Char := lbrace :: "\"sessionKey\":\"".toList

/-- Literal between the two field values. -/
def litMid : List Char := ",\"accountName\":\"".toList

/-- The exact character sequence `JSON.stringify` produces for a
`SessionData` whose fields need no escaping. -/
def serializeSession (d : SessionData) : List Char :=
  litKey ++ d.sessionKey ++ [quoteChar] ++ litMid
    ++ d.accountName ++ [quoteChar, rbrace]

/-- Consume an expected literal from the front of the input. -/
def dropLead : List Char → List Char → Option (List Char)
  | [], s => some s
  | _ :: _, [] => none
  | p :: ps, c :: cs => if c = p then dropLead ps cs else none

/-- Read a JSON string body up to (and consuming) its closing quote. -/
def readStringField : List Char → Option (List Char × List Char)
  | [] => none
  | c :: cs =>
    if c = quoteChar then some ([], cs)
    else
      match readStringField cs with
      | some (f, r) => some (c :: f, r)
      | none => none

/-- The behaviour of `JSON.parse` on the file contents, at the shape of the session
object: succeeds exactly on a complete serialized object and
recovers both fields; anything else (in particular a truncation) is a parse
error, which `loadSession` catches and turns into null. -/
def parseSession (s : List Char) : Option SessionData :=
  match dropLead litKey s with
  | none => none
  | some r1 =>
    match readStringField r1 with
    | none => none
    | some (key, r2) =>
      match dropLead litMid r2 with
      | none => none
      | some r3 =>
        match readStringField r3 with
        | none => none
        | some (name, r4) =>
          if r4 = [rbrace] then some ⟨key, name⟩ else none

/-- The per-account persistent store: the contents of `SESSION_FILE` and of
a temporary sibling path. The module (src/unnamed/part_009) never touches
any temporary path. -/
structure FS where
  sessionFile : Option (List Char)
  tempFile : Option (List Char)
deriving DecidableEq

/-- Embedding of `saveSession(sessionData)` (part_009 lines 18-29): one
direct `fs.writeFileSync(SESSION_FILE, JSON.stringify(sessionData))`. -/
def saveSession (d : SessionData) (fs : FS) : Bool × FS :=
  (true, { fs with sessionFile := some (serializeSession d) })

/-- A `saveSession` whose single direct write is interrupted after `k`
characters: since the write targets `SESSION_FILE` itself, the truncated
prefix replaces the previous contents in place. -/
def saveSessionInterrupted (d : SessionData) (k : Nat) (fs : FS) : FS :=
  { fs with sessionFile := some ((serializeSession d).take k) }

/-- Embedding of `loadSession()` (part_009 lines 35-45): null when the file
does not exist, otherwise `JSON.parse` of its contents with any error
caught and turned into null. -/
def loadSession (fs : FS) : Option SessionData :=
  match fs.sessionFile with
  | none => none
  | some s => parseSession s

theorem dropLead_append (p s : List Char) : dropLead p (p ++ s) = some s := by
  induction p with
  | nil => rfl
  | cons c cs ih => simp [dropLead, ih]

theorem readStringField_append (f r : List Char) (hf : quoteChar ∉ f) :
    readStringField (f ++ quoteChar :: r) = some (f, r) := by
  induction f with
  | nil => simp [readStringField]
  | cons c cs ih =>
    have hc : c ≠ quoteChar := by
      intro hc; exact hf (hc ▸ List.mem_cons_self c cs)
    have hcs : quoteChar ∉ cs := fun h => hf (List.mem_cons_of_mem c h)
    simp [readStringField, hc, ih hcs]

/-- Round trip of the serializer through the parser, for field values that
contain no quote character. -/
theorem parseSession_serializeSession (d : SessionData)
    (hkey : quoteChar ∉ d.sessionKey) (hname : quoteChar ∉ d.accountName) :
    parseSession (serializeSession d) = some d := by
  have h1 : serializeSession d
      = litKey ++ (d.sessionKey ++ quoteChar
        :: (litMid ++ (d.accountName ++ quoteChar :: [rbrace]))) := by
    simp [serializeSession, List.append_assoc]
  have h2 := readStringField_append d.sessionKey
    (litMid ++ (d.accountName ++ quoteChar :: [rbrace])) hkey
  have h3 := readStringField_append d.accountName [rbrace] hname
  simp [parseSession, h1, dropLead_append, h2, h3]

end SessionManager

namespace ConnectionManager

/-- Reconnection settings from app.config.js (`appConfig.steam.reconnect`). -/
structure ReconnectConfig where
  maxAttempts : Nat
  initialDelay : ℚ
  maxDelay : ℚ
  backoffMultiplier : ℚ
deriving DecidableEq

/-- The shipped configuration: 10 attempts, 3000 ms initial delay, 60000 ms
cap, multiplier 1.5. -/
def appConfigReconnect : ReconnectConfig :=
  { maxAttempts := 10, initialDelay := 3000, maxDelay := 60000,
    backoffMultiplier := 3 / 2 }

/-- The `connectionState` record (connection-manager.js lines 9-18). The
stored `reconnectFunc` is tracked only by presence, which is all the
control flow inspects. -/
structure ConnectionState where
  connected : Bool
  reconnecting : Bool
  reconnectAttempts : Nat
  maxReconnectAttempts : Nat
  reconnectDelay : ℚ
  lastDisconnectReason : Option String
  hasReconnectFunc : Bool
deriving DecidableEq

/-- Observable actions of the manager: a "reconnecting" callback carrying
`(attempt+1, maxAttempts, delay)`, an execution of the scheduled reconnect
closure, and the terminal "reconnectFailed" callback with the last known
disconnect reason. -/
inductive Event where
  | reconnectingEv (attempt maxAttempts : Nat) (delay : ℚ)
  | reconnectFnCalled
  | reconnectFailedEv (reason : Option String)
deriving DecidableEq

/-- The manager together with its slice of the Node event loop: the number
of `setTimeout` callbacks scheduled by `attemptReconnect` that have not yet
run, and the trace of observable actions so far. -/
structure Machine where
  st : ConnectionState
  pendingTimers : Nat
  events : List Event
deriving DecidableEq

/-- The backoff delay as `attemptReconnect` computes it (lines 85-89):
`Math.min(reconnectDelay * backoffMultiplier ** reconnectAttempts,
maxDelay)`. -/
def computeDelay (cfg : ReconnectConfig) (st : ConnectionState) : ℚ :=
  min (st.reconnectDelay * cfg.backoffMultiplier ^ st.reconnectAttempts)
    cfg.maxDelay

/-- Embedding of `attemptReconnect` (lines 81-109): bail out when not
reconnecting, otherwise emit the "reconnecting" callback and schedule one
timer callback. The attempt counter is not changed here; it is incremented
when the timer fires. -/
def attemptReconnect (cfg : ReconnectConfig) (m : Machine) : Machine :=
  if m.st.reconnecting then
    { m with
      events := m.events
        ++ [Event.reconnectingEv (m.st.reconnectAttempts + 1)
              m.st.maxReconnectAttempts (computeDelay cfg m.st)],
      pendingTimers := m.pendingTimers + 1 }
  else m

/-- Embedding of `startReconnect(reconnectFunc)` (lines 64-75). -/
def startReconnect (cfg : ReconnectConfig) (m : Machine) : Bool × Machine :=
  if m.st.reconnecting then (false, m)
  else
    (true,
      attemptReconnect cfg
        { m with st := { m.st with reconnecting := true,
                                   reconnectAttempts := 0,
                                   hasReconnectFunc := true } })

/-- Embedding of `handleReconnectFailure` (lines 128-145): at or past the
attempt cap, leave the reconnecting state and emit the terminal callback
with the last disconnect reason; otherwise retry through the stored
reconnect function. -/
def handleReconnectFailure (cfg : ReconnectConfig) (m : Machine) : Machine :=
  if m.st.maxReconnectAttempts ≤ m.st.reconnectAttempts then
    { m with st := { m.st with reconnecting := false },
             events := m.events
               ++ [Event.reconnectFailedEv m.st.lastDisconnectReason] }
  else if m.st.hasReconnectFunc then attemptReconnect cfg m
  else m

/-- A scheduled timer callback runs (lines 97-108): the attempt counter is
incremented, the captured reconnect closure is invoked (the
`reconnectFnCalled` event), and a synchronous throw routes into
`handleReconnectFailure`. `fnFails` says whether the closure throws. -/
def fireTimer (cfg : ReconnectConfig) (fnFails : Bool) (m : Machine) :
    Machine :=
  match m.pendingTimers with
  | 0 => m
  | n + 1 =>
    let m1 : Machine :=
      { m with
        pendingTimers := n,
        st := { m.st with reconnectAttempts := m.st.reconnectAttempts + 1 },
        events := m.events ++ [Event.reconnectFnCalled] }
    if fnFails then handleReconnectFailure cfg m1 else m1

/-- Embedding of `stopReconnect()` (lines 161-168): clears the reconnecting
flag, the attempt counter and the stored reconnect function. The timer
handle returned by `setTimeout` is never stored, so no `clearTimeout` runs
and `pendingTimers` is left as it is. -/
def stopReconnect (m : Machine) : Machine :=
  if m.st.reconnecting && m.st.hasReconnectFunc then
    { m with st := { m.st with reconnecting := false,
                               reconnectAttempts := 0,
                               hasReconnectFunc := false } }
  else m

/-- Run `n` scheduled timer callbacks in order, each with the same failure
outcome for the reconnect closure. -/
def fireN (cfg : ReconnectConfig) (fnFails : Bool) : Nat → Machine → Machine
  | 0, m => m
  | n + 1, m => fireN cfg fnFails n (fireTimer cfg fnFails m)

/-- Count of terminal "reconnectFailed" callbacks in a trace. -/
def countFailed (evs : List Event) : Nat :=
  evs.countP (fun e => match e with
    | Event.reconnectFailedEv _ => true
    | _ => false)

/-- Count of reconnect-closure executions in a trace. -/
def countCalled (evs : List Event) : Nat :=
  evs.countP (fun e => match e with
    | Event.reconnectFnCalled => true
    | _ => false)

/-- The "reconnecting" callback announcing try number `i + 1`. -/
def schedEv (cfg : ReconnectConfig) (st0 : ConnectionState) (i : Nat) :
    Event :=
  Event.reconnectingEv (i + 1) st0.maxReconnectAttempts
    (min (st0.reconnectDelay * cfg.backoffMultiplier ^ i) cfg.maxDelay)

/-- The trace after the supervisor has scheduled try `k` and seen tries
`0..k-1` fail below the cap. -/
def midTrace (cfg : ReconnectConfig) (st0 : ConnectionState) : Nat → List Event
  | 0 => [schedEv cfg st0 0]
  | k + 1 =>
    midTrace cfg st0 k ++ [Event.reconnectFnCalled, schedEv cfg st0 (k + 1)]

/-- The machine between failures: try `k` is scheduled, `k` closure tries have
already failed, and the supervisor is still reconnecting. -/
def midMachine (cfg : ReconnectConfig) (st0 : ConnectionState) (k : Nat) :
    Machine :=
  { st := { st0 with reconnecting := true, reconnectAttempts := k,
                     hasReconnectFunc := true },
    pendingTimers := 1,
    events := midTrace cfg st0 k }

/-- The machine after the final failed try: out of the reconnecting state,
no timer pending, exactly one terminal callback at the end of the trace. -/
def finalMachine (cfg : ReconnectConfig) (st0 : ConnectionState) : Machine :=
  { st := { st0 with reconnecting := false,
                     reconnectAttempts := st0.maxReconnectAttempts,
                     hasReconnectFunc := true },
    pendingTimers := 0,
    events := midTrace cfg st0 (st0.maxReconnectAttempts - 1)
      ++ [Event.reconnectFnCalled,
          Event.reconnectFailedEv st0.lastDisconnectReason] }

theorem attemptReconnect_st (cfg : ReconnectConfig) (m : Machine) :
    (attemptReconnect cfg m).st = m.st := by
  unfold attemptReconnect
  split <;> rfl

theorem handleReconnectFailure_attempts (cfg : ReconnectConfig)
    (m : Machine) :
    (handleReconnectFailure cfg m).st.reconnectAttempts
      = m.st.reconnectAttempts := by
  unfold handleReconnectFailure
  split
  · rfl
  · split
    · rw [attemptReconnect_st]
    · rfl

theorem startReconnect_eq_mid (cfg : ReconnectConfig) (m0 : Machine)
    (hrec : m0.st.reconnecting = false) (hpend : m0.pendingTimers = 0)
    (hev : m0.events = []) :
    (startReconnect cfg m0).2 = midMachine cfg m0.st 0 := by
  obtain ⟨⟨c, r, ra, mra, rd, ldr, hrf⟩, p, e⟩ := m0
  subst hrec hpend hev
  simp [startReconnect, attemptReconnect, midMachine, midTrace, schedEv,
    computeDelay]

theorem fireTimer_mid_step (cfg : ReconnectConfig) (st0 : ConnectionState)
    (k : Nat) (hk : k + 1 < st0.maxReconnectAttempts) :
    fireTimer cfg true (midMachine cfg st0 k) = midMachine cfg st0 (k + 1) := by
  have h1 : ¬ (st0.maxReconnectAttempts ≤ k + 1) := by omega
  simp [fireTimer, midMachine, handleReconnectFailure, attemptReconnect,
    midTrace, schedEv, computeDelay, h1]

theorem fireTimer_mid_last (cfg : ReconnectConfig) (st0 : ConnectionState)
    (k : Nat) (hk : k + 1 = st0.maxReconnectAttempts) :
    fireTimer cfg true (midMachine cfg st0 k) = finalMachine cfg st0 := by
  have h1 : st0.maxReconnectAttempts ≤ k + 1 := le_of_eq hk.symm
  have h2 : st0.maxReconnectAttempts - 1 = k := by omega
  simp [fireTimer, midMachine, handleReconnectFailure, finalMachine,
    midTrace, h1, h2, hk]

theorem fireN_mid (cfg : ReconnectConfig) (st0 : ConnectionState) :
    ∀ r k, k + r + 1 = st0.maxReconnectAttempts →
      fireN cfg true (r + 1) (midMachine cfg st0 k) = finalMachine cfg st0 := by
  intro r
  induction r with
  | zero =>
    intro k hk
    show fireN cfg true 0 (fireTimer cfg true (midMachine cfg st0 k)) = _
    rw [fireTimer_mid_last cfg st0 k (by omega)]
    rfl
  | succ r ih =>
    intro k hk
    show fireN cfg true (r + 1)
      (fireTimer cfg true (midMachine cfg st0 k)) = _
    rw [fireTimer_mid_step cfg st0 k (by omega)]
    exact ih (k + 1) (by omega)

theorem fireN_no_pending (cfg : ReconnectConfig) (b : Bool) (m : Machine)
    (hm : m.pendingTimers = 0) : ∀ n, fireN cfg b n m = m := by
  have hfix : fireTimer cfg b m = m := by
    unfold fireTimer
    rw [hm]
  intro n
  induction n with
  | zero => rfl
  | succ n ih =>
    show fireN cfg b n (fireTimer cfg b m) = m
    rw [hfix]
    exact ih

theorem countFailed_append (l1 l2 : List Event) :
    countFailed (l1 ++ l2) = countFailed l1 + countFailed l2 :=
  List.countP_append _ _ _

theorem countCalled_append (l1 l2 : List Event) :
    countCalled (l1 ++ l2) = countCalled l1 + countCalled l2 :=
  List.countP_append _ _ _

theorem countFailed_midTrace (cfg : ReconnectConfig) (st0 : ConnectionState)
    (k : Nat) : countFailed (midTrace cfg st0 k) = 0 := by
  induction k with
  | zero => rfl
  | succ k ih =>
    simp [midTrace, countFailed, List.countP_append, schedEv] at ih ⊢
    exact ih

theorem countCalled_midTrace (cfg : ReconnectConfig) (st0 : ConnectionState)
    (k : Nat) : countCalled (midTrace cfg st0 k) = k := by
  induction k with
  | zero => rfl
  | succ k ih =>
    simp [midTrace, countCalled, List.countP_append, schedEv] at ih ⊢
    omega

end ConnectionManager

namespace SteamAccount

/-- The per-account state relevant to playtime accounting
(SteamAccount.cs): the persisted state file `FarmedSeconds` (activity id to
accumulated seconds), the in-memory `_farmingStartTimes`, the configured
game list `_config.Games` and target map `_config.TargetHours`, and the
`_isRunning` flag. -/
structure AccountState where
  farmedSeconds : Nat → Option ℚ
  farmingStartTimes : Nat → Option ℚ
  games : List Nat
  targetHours : Nat → Option ℚ
  isRunning : Bool

/-- Embedding of `SaveState()` (SteamAccount.cs lines 288-332) at wall
clock `now`: for every activity with a running start time, add `now -
startTime` to its persisted seconds and re-begin the start time at `now`;
for an activity with no start time, keep its persisted entry only while it
is still configured for farming. -/
def saveState (now : ℚ) (s : AccountState) : AccountState :=
  { s with
    farmedSeconds := fun a =>
      match s.farmingStartTimes a with
      | some start => some ((s.farmedSeconds a).getD 0 + (now - start))
      | none =>
        if (s.farmedSeconds a).isSome ∧ a ∈ s.games
        then s.farmedSeconds a else none,
    farmingStartTimes := fun a => (s.farmingStartTimes a).map (fun _ => now) }

/-- Embedding of `OnDisconnected` (lines 102-117) at wall clock `now`:
checkpoint through `SaveState`, then reset every running start time to
`now` (farming does not accrue while disconnected). -/
def onDisconnected (now : ℚ) (s : AccountState) : AccountState :=
  let s1 := saveState now s
  { s1 with
    farmingStartTimes := fun a => (s1.farmingStartTimes a).map (fun _ => now) }

/-- Embedding of the `OnLoggedOn` success path (lines 142-150) followed by
`StartFarming` (lines 194-198) at wall clock `now`: reset every existing
start time to `now`, then begin a start time for every configured game that
has none. -/
def onLoggedOn (now : ℚ) (s : AccountState) : AccountState :=
  let s1 : AccountState :=
    { s with
      farmingStartTimes := fun a => (s.farmingStartTimes a).map (fun _ => now) }
  { s1 with
    farmingStartTimes := fun a =>
      if a ∈ s1.games ∧ s1.farmingStartTimes a = none
      then some now else s1.farmingStartTimes a }

/-- Embedding of `CleanupCompletedGames` (lines 352-372): delete the
persisted entry of every completed activity. -/
def cleanupCompletedGames (completed : List Nat) (s : AccountState) :
    AccountState :=
  { s with farmedSeconds := fun a =>
      if a ∈ completed then none else s.farmedSeconds a }

/-- The completion scan of `CheckTargets` (lines 245-260): the configured
games whose persisted seconds have reached `targetHours * 3600`, the
comparison being `>=`. Games without a target entry are skipped. -/
def gamesToRemove (s : AccountState) : List Nat :=
  s.games.filter (fun a =>
    match s.targetHours a with
    | some th => decide ((s.farmedSeconds a).getD 0 ≥ th * 3600)
    | none => false)

/-- One body of the `CheckTargets` loop (lines 242-284) at wall clock
`now`, with `_config.Games` free of duplicates so that the iterated
`List.Remove` is a filter: compute the completed games; if there are none,
just checkpoint. Otherwise drop them from the configured games and the
start times; when no game is left, stop (`_isRunning = false`), save, and
clean up; when games remain, the new broadcast set is the remaining games
(`UpdateGamesPlayed`), the completed entries are cleaned up, and the state
is saved. -/
def tick (now : ℚ) (s : AccountState) : AccountState :=
  let toRemove := gamesToRemove s
  if toRemove.isEmpty then saveState now s
  else
    let s1 : AccountState :=
      { s with
        games := s.games.filter (fun a => a ∉ toRemove),
        farmingStartTimes := fun a =>
          if a ∈ toRemove then none else s.farmingStartTimes a }
    if s1.games.isEmpty then
      cleanupCompletedGames toRemove (saveState now { s1 with isRunning := false })
    else
      saveState now (cleanupCompletedGames toRemove s1)

/-- The state at the first login of a run: empty state file, no start
times, the configured games and targets, farming running. -/
def initState (games : List Nat) (targets : Nat → Option ℚ) : AccountState :=
  { farmedSeconds := fun _ => none,
    farmingStartTimes := fun _ => none,
    games := games,
    targetHours := targets,
    isRunning := true }

/-- A run of connected intervals: for each `(t0, t1)` the account logs on
at `t0` and is disconnected at `t1` (checkpointing at the boundary), then
reconnects at the start of the next interval. -/
def runIntervals (s : AccountState) : List (ℚ × ℚ) → AccountState
  | [] => s
  | (t0, t1) :: rest => runIntervals (onDisconnected t1 (onLoggedOn t0 s)) rest

/-- Total wall-clock duration of a list of connected intervals. -/
def sumDurations : List (ℚ × ℚ) → ℚ
  | [] => 0
  | (t0, t1) :: rest => (t1 - t0) + sumDurations rest

theorem tick_eq_of_incomplete (now : ℚ) (s : AccountState) (R : List Nat)
    (hR : gamesToRemove s = R)
    (hne : R.isEmpty = false)
    (hleft : (s.games.filter (fun a => a ∉ R)).isEmpty = false) :
    tick now s
      = saveState now (cleanupCompletedGames R
          { s with games := s.games.filter (fun a => a ∉ R),
                   farmingStartTimes := fun a =>
                     if a ∈ R then none else s.farmingStartTimes a }) := by
  simp only [tick, hR, hne, Bool.false_eq_true, if_false, hleft]

theorem tick_eq_of_all_complete (now : ℚ) (s : AccountState) (R : List Nat)
    (hR : gamesToRemove s = R)
    (hne : R.isEmpty = false)
    (hleft : (s.games.filter (fun a => a ∉ R)).isEmpty = true) :
    tick now s
      = cleanupCompletedGames R (saveState now
          { s with games := s.games.filter (fun a => a ∉ R),
                   farmingStartTimes := fun a =>
                     if a ∈ R then none else s.farmingStartTimes a,
                   isRunning := false }) := by
  simp only [tick, hR, hne, Bool.false_eq_true, if_false, hleft, if_true]

theorem onLoggedOn_startTimes_mem (s : AccountState) (now : ℚ) (a : Nat)
    (ha : a ∈ s.games) :
    (onLoggedOn now s).farmingStartTimes a = some now := by
  cases hst : s.farmingStartTimes a <;>
    simp [onLoggedOn, ha, hst]

theorem onLoggedOn_frame (s : AccountState) (now : ℚ) :
    (onLoggedOn now s).games = s.games
    ∧ (onLoggedOn now s).farmedSeconds = s.farmedSeconds := ⟨rfl, rfl⟩

theorem onDisconnected_ledger (s : AccountState) (now t : ℚ) (a : Nat)
    (hst : s.farmingStartTimes a = some t) :
    (onDisconnected now s).farmedSeconds a
      = some ((s.farmedSeconds a).getD 0 + (now - t)) := by
  simp [onDisconnected, saveState, hst]

theorem runIntervals_ledger (ivs : List (ℚ × ℚ)) :
    ∀ (s : AccountState) (a : Nat), a ∈ s.games →
      ((runIntervals s ivs).farmedSeconds a).getD 0
        = (s.farmedSeconds a).getD 0 + sumDurations ivs := by
  induction ivs with
  | nil =>
    intro s a _
    simp [runIntervals, sumDurations]
  | cons iv rest ih =>
    intro s a ha
    obtain ⟨t0, t1⟩ := iv
    have hst : (onLoggedOn t0 s).farmingStartTimes a = some t0 :=
      onLoggedOn_startTimes_mem s t0 a ha
    have hled : (onDisconnected t1 (onLoggedOn t0 s)).farmedSeconds a
        = some (((onLoggedOn t0 s).farmedSeconds a).getD 0 + (t1 - t0)) :=
      onDisconnected_ledger (onLoggedOn t0 s) t1 t0 a hst
    have hgames : a ∈ (onDisconnected t1 (onLoggedOn t0 s)).games := ha
    show ((runIntervals (onDisconnected t1 (onLoggedOn t0 s)) rest).farmedSeconds
        a).getD 0 = _
    rw [ih _ a hgames, hled]
    show (((onLoggedOn t0 s).farmedSeconds a).getD 0 + (t1 - t0))
        + sumDurations rest = _
    have : (onLoggedOn t0 s).farmedSeconds a = s.farmedSeconds a := rfl
    rw [this]
    show _ = (s.farmedSeconds a).getD 0 + ((t1 - t0) + sumDurations rest)
    ring

end SteamAccount

namespace Claims

open EventManager in
/-- C9: for every event name outside the fixed recognized set, `onEvent` (the module function `on`)
registers nothing and returns a removal closure that is a no-op on every
registry respecting the invariant of the module, `trigger` invokes no handler
(and, dispatching over no handlers, cannot raise), and `hasHandlers` does
not report true; moreover registration and its removal closure preserve the
invariant, which the initial registry satisfies. -/
theorem c9_unrecognized_events_inert (e : String) (h : Nat) (reg : Registry)
    (he : e ∉ recognizedEvents) (hreg : UnknownAbsent reg) :
    (onEvent reg e h).1 = reg
    ∧ (∀ r : Registry, UnknownAbsent r → (onEvent reg e h).2 r = r)
    ∧ trigger reg e = []
    ∧ hasHandlers reg e = false
    ∧ UnknownAbsent (onEvent reg e h).1
    ∧ (∀ r : Registry, UnknownAbsent r → UnknownAbsent ((onEvent reg e h).2 r))
    ∧ UnknownAbsent initialRegistry := by
  have hnone : reg e = none := hreg e he
  refine ⟨?_, ?_, ?_, ?_, ?_, ?_, initialRegistry_unknownAbsent⟩
  · funext x
    by_cases hx : x = e
    · subst hx; simp [onEvent, hnone]
    · simp [onEvent, hx]
  · intro r hr
    funext x
    by_cases hx : x = e
    · subst hx; simp [onEvent, hr x he]
    · simp [onEvent, hx]
  · simp [trigger, hnone]
  · simp [hasHandlers, hnone]
  · intro x hx
    by_cases hxe : x = e
    · subst hxe; simp [onEvent, hnone]
    · simp [onEvent, hxe, hreg x hx]
  · intro r hr x hx
    by_cases hxe : x = e
    · subst hxe; simp [onEvent, hr x hx]
    · simp [onEvent, hxe, hr x hx]

/-- Witness for C9 at the concrete unrecognized event "connecting" on the
initial registry. -/
theorem c9_witness :
    EventManager.trigger EventManager.initialRegistry "connecting" = []
    ∧ EventManager.hasHandlers EventManager.initialRegistry "connecting" = false :=
  let r := c9_unrecognized_events_inert "connecting" 0
    EventManager.initialRegistry (by decide)
    EventManager.initialRegistry_unknownAbsent
  ⟨r.2.2.1, r.2.2.2.1⟩

open SteamAccount in
/-- C1: over any run of connected intervals — logging on re-begins every
start timestamp of every configured activity, disconnecting checkpoints the
accumulator and re-stamps the start times — the persisted seconds of each
configured activity equal the summed wall-clock durations of the intervals:
disconnected time is never added and no connected interval is lost. -/
theorem c1_accumulation_exact (games : List Nat) (targets : Nat → Option ℚ)
    (ivs : List (ℚ × ℚ)) (a : Nat) (ha : a ∈ games) :
    ((runIntervals (initState games targets) ivs).farmedSeconds a).getD 0
      = sumDurations ivs := by
  have h := runIntervals_ledger ivs (initState games targets) a ha
  simpa [initState] using h

/-- Witness for C1: one activity farmed over [0,10] and [20,25] accumulates
exactly 15 seconds. -/
theorem c1_witness :
    ((SteamAccount.runIntervals
        (SteamAccount.initState [730] (fun _ => none))
        [(0, 10), (20, 25)]).farmedSeconds 730).getD 0 = 15 :=
  (c1_accumulation_exact [730] (fun _ => none) [(0, 10), (20, 25)] 730
    (by decide)).trans (by norm_num [SteamAccount.sumDurations])

open SteamAccount in
/-- C8: a checkpoint (`SaveState`) never lowers the persisted seconds of an
activity that is still configured or still running, and
`CleanupCompletedGames` touches no entry other than those of the activities
deliberately removed. -/
theorem c8_ledger_monotone (s : AccountState) (now : ℚ) (a : Nat)
    (hnow : (s.farmingStartTimes a).getD now ≤ now) :
    ((a ∈ s.games ∨ (s.farmingStartTimes a).isSome = true) →
      (s.farmedSeconds a).getD 0 ≤ ((saveState now s).farmedSeconds a).getD 0)
    ∧ (∀ completed : List Nat, a ∉ completed →
        (cleanupCompletedGames completed s).farmedSeconds a
          = s.farmedSeconds a) := by
  constructor
  · intro hmem
    cases hst : s.farmingStartTimes a with
    | some t =>
      rw [hst] at hnow
      simp only [Option.getD_some] at hnow
      simp only [saveState, hst, Option.getD_some]
      have : (0 : ℚ) ≤ now - t := by linarith
      calc (s.farmedSeconds a).getD 0
          ≤ (s.farmedSeconds a).getD 0 + (now - t) := by linarith
        _ = (some ((s.farmedSeconds a).getD 0 + (now - t))).getD 0 := rfl
    | none =>
      have hg : a ∈ s.games := by
        rcases hmem with h | h
        · exact h
        · rw [hst] at h
          simp at h
      cases hsome : s.farmedSeconds a with
      | some v => simp [saveState, hst, hsome, hg]
      | none => simp [saveState, hst, hsome, hg]
  · intro completed hc
    simp [cleanupCompletedGames, hc]

/-- A state with one activity, 100 persisted seconds and a start time of 5. -/
def c8State : SteamAccount.AccountState :=
  { farmedSeconds := fun a => if a = 730 then some 100 else none,
    farmingStartTimes := fun a => if a = 730 then some 5 else none,
    games := [730],
    targetHours := fun _ => none,
    isRunning := true }

/-- Witness for C8: a checkpoint at time 7 does not lower the 100 persisted
seconds, and cleanup of an unrelated activity leaves the entry alone. -/
theorem c8_witness :
    ((c8State.farmedSeconds 730).getD 0
      ≤ ((SteamAccount.saveState 7 c8State).farmedSeconds 730).getD 0)
    ∧ (SteamAccount.cleanupCompletedGames [10] c8State).farmedSeconds 730
        = c8State.farmedSeconds 730 :=
  let r := c8_ledger_monotone c8State 7 730 (by decide)
  ⟨r.1 (Or.inl (by decide)), r.2 [10] (by decide)⟩

open SteamAccount in
/-- C7: with a target of 1 hour, the completion scan includes an activity
exactly when its persisted seconds reach 3600 (the comparison is `>=`):
3600 is reported complete, 3599.9 is not. -/
theorem c7_target_comparison_ge (s : AccountState) (a : Nat)
    (ha : a ∈ s.games) (ht : s.targetHours a = some 1) :
    (a ∈ gamesToRemove s ↔ (s.farmedSeconds a).getD 0 ≥ 3600)
    ∧ ((s.farmedSeconds a).getD 0 = 3600 → a ∈ gamesToRemove s)
    ∧ ((s.farmedSeconds a).getD 0 = 35999 / 10 → a ∉ gamesToRemove s) := by
  have hiff : a ∈ gamesToRemove s ↔ (s.farmedSeconds a).getD 0 ≥ 3600 := by
    simp [gamesToRemove, List.mem_filter, ha, ht]
  refine ⟨hiff, ?_, ?_⟩
  · intro hv
    exact hiff.mpr (by rw [hv])
  · intro hv hmem
    have h := hiff.mp hmem
    rw [hv] at h
    norm_num at h

/-- A state with one activity, target 1 hour, and `v` persisted seconds. -/
def c7State (v : ℚ) : SteamAccount.AccountState :=
  { farmedSeconds := fun a => if a = 10 then some v else none,
    farmingStartTimes := fun _ => none,
    games := [10],
    targetHours := fun a => if a = 10 then some 1 else none,
    isRunning := true }

/-- Witness for C7: 3600.0 accumulated seconds are reported complete and
3599.9 are not. -/
theorem c7_witness :
    10 ∈ SteamAccount.gamesToRemove (c7State 3600)
    ∧ 10 ∉ SteamAccount.gamesToRemove (c7State (35999 / 10)) :=
  ⟨(c7_target_comparison_ge (c7State 3600) 10 (by decide) rfl).2.1 rfl,
   (c7_target_comparison_ge (c7State (35999 / 10)) 10 (by decide) rfl).2.2 rfl⟩

/-- Activities 1 and 2 farming since time `t`, with `v1` and `v2` persisted
seconds and a 1-hour target on activity 1 only. -/
def c6State (v1 v2 t : ℚ) : SteamAccount.AccountState :=
  { farmedSeconds := fun a =>
      if a = 1 then some v1 else if a = 2 then some v2 else none,
    farmingStartTimes := fun a => if a = 1 ∨ a = 2 then some t else none,
    games := [1, 2],
    targetHours := fun a => if a = 1 then some 1 else none,
    isRunning := true }

/-- Activity 1 alone, farming since `t` with `v1` persisted seconds and a
1-hour target. -/
def c6StateOne (v1 t : ℚ) : SteamAccount.AccountState :=
  { farmedSeconds := fun a => if a = 1 then some v1 else none,
    farmingStartTimes := fun a => if a = 1 then some t else none,
    games := [1],
    targetHours := fun a => if a = 1 then some 1 else none,
    isRunning := true }

open SteamAccount in
/-- C6: a tick that finds activity 1 at or past its target removes it from
the broadcast set (which becomes [2]) and deletes its ledger entry while
the entry of activity 2 is untouched and farming continues; and when the removal
empties the broadcast set, the orchestrator stops as a normal terminal
state (`_isRunning` cleared by the tick itself, not by an error path). -/
theorem c6_target_tick (v1 v2 t : ℚ) (h1 : v1 ≥ 3600) :
    (tick t (c6State v1 v2 t)).games = [2]
    ∧ (tick t (c6State v1 v2 t)).farmedSeconds 1 = none
    ∧ (tick t (c6State v1 v2 t)).farmedSeconds 2 = some v2
    ∧ (tick t (c6State v1 v2 t)).isRunning = true
    ∧ (tick t (c6StateOne v1 t)).games = []
    ∧ (tick t (c6StateOne v1 t)).isRunning = false := by
  have h1a : (1 : ℚ) * 3600 ≤ v1 := by linarith
  have h1b : (3600 : ℚ) ≤ v1 := by linarith
  have htr : gamesToRemove (c6State v1 v2 t) = [1] := by
    simp [gamesToRemove, c6State, List.filter_cons, h1a, h1b]
  have htr1 : gamesToRemove (c6StateOne v1 t) = [1] := by
    simp [gamesToRemove, c6StateOne, List.filter_cons, h1a, h1b]
  have heq := tick_eq_of_incomplete t (c6State v1 v2 t) [1] htr rfl rfl
  have heq1 := tick_eq_of_all_complete t (c6StateOne v1 t) [1] htr1 rfl rfl
  refine ⟨?_, ?_, ?_, ?_, ?_, ?_⟩
  · rw [heq]; rfl
  · rw [heq]; simp [saveState, cleanupCompletedGames, c6State]
  · rw [heq]; simp [saveState, cleanupCompletedGames, c6State]
  · rw [heq]; rfl
  · rw [heq1]; rfl
  · rw [heq1]; rfl

/-- Witness for C6 at 3600 accumulated seconds on activity 1. -/
theorem c6_witness :
    (SteamAccount.tick 0 (c6State 3600 100 0)).games = [2]
    ∧ (SteamAccount.tick 0 (c6StateOne 3600 0)).isRunning = false :=
  let r := c6_target_tick 3600 100 0 (by norm_num)
  ⟨r.1, r.2.2.2.2.2⟩

/-- A stored session value: key "aabb", account "alice". -/
def c3PrevData : SessionManager.SessionData :=
  ⟨"aabb".toList, "alice".toList⟩

/-- A session value whose save will be interrupted. -/
def c3NewData : SessionManager.SessionData :=
  ⟨"ccdd".toList, "bob".toList⟩

/-- The store before the interrupted save: the previous value is loadable
and no temporary file exists. -/
def c3Store : SessionManager.FS :=
  { sessionFile := some (SessionManager.serializeSession c3PrevData),
    tempFile := none }

open SessionManager in
/-- C3 counterexample: interrupting `saveSession` after its first written
character leaves a subsequent `loadSession` returning null, not the
previously stored value, because the single `writeFileSync` targets the
session file directly (no temporary path, no atomic replacement). -/
theorem c3_counterexample :
    loadSession c3Store = some c3PrevData
    ∧ loadSession (saveSessionInterrupted c3NewData 1 c3Store) = none
    ∧ loadSession (saveSessionInterrupted c3NewData 1 c3Store)
        ≠ loadSession c3Store := by
  refine ⟨?_, ?_, ?_⟩ <;> decide

open SessionManager in
/-- C3 as amended: `saveSession` performs one direct write to the session
file and never touches a temporary path, so an interrupted save overwrites
the previous value in place with a truncated prefix; a subsequent load of
any proper truncation returns null (the parse error is treated as a cache
miss), while a completed save is loadable. -/
theorem c3_save_overwrites_in_place (d : SessionData) (fs : FS) (k : Nat)
    (hkey : quoteChar ∉ d.sessionKey) (hname : quoteChar ∉ d.accountName) :
    (saveSession d fs).2.sessionFile = some (serializeSession d)
    ∧ (saveSession d fs).2.tempFile = fs.tempFile
    ∧ (saveSessionInterrupted d k fs).tempFile = fs.tempFile
    ∧ loadSession (saveSession d fs).2 = some d
    ∧ (k < (serializeSession c3NewData).length →
        loadSession (saveSessionInterrupted c3NewData k fs) = none) := by
  have hball : ∀ j, j < (serializeSession c3NewData).length →
      parseSession ((serializeSession c3NewData).take j) = none := by decide
  refine ⟨rfl, rfl, rfl, ?_, ?_⟩
  · simpa [loadSession, saveSession]
      using parseSession_serializeSession d hkey hname
  · intro hk
    simpa [loadSession, saveSessionInterrupted] using hball k hk

/-- Witness for the amended C3 at concrete data. -/
theorem c3_witness :
    SessionManager.loadSession
        (SessionManager.saveSession c3PrevData c3Store).2 = some c3PrevData :=
  (c3_save_overwrites_in_place c3PrevData c3Store 1
    (by decide) (by decide)).2.2.2.1

/-- A supervisor mid-reconnection: one retry scheduled (one pending timer),
no observable action yet. -/
def c2Machine : ConnectionManager.Machine :=
  { st := { connected := false, reconnecting := true, reconnectAttempts := 0,
            maxReconnectAttempts := 10, reconnectDelay := 3000,
            lastDisconnectReason := some "NoConnection",
            hasReconnectFunc := true },
    pendingTimers := 1,
    events := [] }

open ConnectionManager in
/-- C2 evaluated at its failing input: with a retry scheduled,
`stopReconnect()` leaves the pending `setTimeout` callback in place (the
timer handle is never stored, so nothing calls `clearTimeout`), and when
that callback runs the captured reconnect closure executes after the stop
call has returned — contradicting the claimed guarantee. -/
theorem c2_scheduled_fn_fires_after_stop :
    (stopReconnect c2Machine).st.reconnecting = false
    ∧ (stopReconnect c2Machine).pendingTimers = 1
    ∧ Event.reconnectFnCalled
        ∈ (fireTimer appConfigReconnect true (stopReconnect c2Machine)).events := by
  refine ⟨rfl, rfl, ?_⟩
  decide

open ConnectionManager in
/-- C4: the delay computed before scheduling try `a` equals
`min(baseDelay * backoffMultiplier ^ a, maxDelay)`; with a multiplier of at
least one and a non-negative base delay it is non-decreasing in the attempt
index; scheduling itself leaves the counter untouched, `startReconnect`
starts it at 0, and each fired try increments it exactly once. -/
theorem c4_backoff_delay (cfg : ReconnectConfig) (st : ConnectionState)
    (m : Machine) (a b : Nat)
    (hmult : 1 ≤ cfg.backoffMultiplier) (hbase : 0 ≤ st.reconnectDelay)
    (hab : a ≤ b) :
    computeDelay cfg { st with reconnectAttempts := a }
        = min (st.reconnectDelay * cfg.backoffMultiplier ^ a) cfg.maxDelay
    ∧ computeDelay cfg { st with reconnectAttempts := a }
        ≤ computeDelay cfg { st with reconnectAttempts := b }
    ∧ (attemptReconnect cfg m).st.reconnectAttempts = m.st.reconnectAttempts
    ∧ (m.st.reconnecting = false →
        (startReconnect cfg m).2.st.reconnectAttempts = 0)
    ∧ (0 < m.pendingTimers → ∀ fnFails,
        (fireTimer cfg fnFails m).st.reconnectAttempts
          = m.st.reconnectAttempts + 1) := by
  refine ⟨rfl, ?_, ?_, ?_, ?_⟩
  · have hpow : cfg.backoffMultiplier ^ a ≤ cfg.backoffMultiplier ^ b :=
      pow_le_pow_right₀ hmult hab
    have hmul : st.reconnectDelay * cfg.backoffMultiplier ^ a
        ≤ st.reconnectDelay * cfg.backoffMultiplier ^ b :=
      mul_le_mul_of_nonneg_left hpow hbase
    exact min_le_min hmul le_rfl
  · rw [attemptReconnect_st]
  · intro hrec
    simp [startReconnect, hrec, attemptReconnect_st]
  · intro hpend fnFails
    obtain ⟨n, hp⟩ : ∃ n, m.pendingTimers = n + 1 :=
      ⟨m.pendingTimers - 1, by omega⟩
    simp only [fireTimer, hp]
    split
    · rw [handleReconnectFailure_attempts]
    · rfl

/-- Witness for C4 at the shipped configuration, attempts 1 and 2. -/
theorem c4_witness :
    ConnectionManager.computeDelay ConnectionManager.appConfigReconnect
        { (c2Machine.st) with reconnectAttempts := 1 }
      ≤ ConnectionManager.computeDelay ConnectionManager.appConfigReconnect
        { (c2Machine.st) with reconnectAttempts := 2 } :=
  (c4_backoff_delay ConnectionManager.appConfigReconnect c2Machine.st
    c2Machine 1 2 (by norm_num [ConnectionManager.appConfigReconnect])
    (by norm_num [c2Machine]) (by norm_num)).2.1

open ConnectionManager in
/-- C5: when the reconnect closure fails on every try, a supervisor started
with `maxAttempts ≥ 1` fires exactly `maxAttempts` tries, then leaves the
reconnecting state, emits exactly one terminal `reconnectFailed`
notification carrying the last known disconnect reason as the final
observable action, and schedules no further attempt (no timer remains
pending and further event-loop turns change nothing). -/
theorem c5_exhausted_attempts_terminal (cfg : ReconnectConfig)
    (m0 : Machine)
    (hM : 1 ≤ m0.st.maxReconnectAttempts)
    (hrec : m0.st.reconnecting = false)
    (hpend : m0.pendingTimers = 0)
    (hev : m0.events = []) :
    (fireN cfg true m0.st.maxReconnectAttempts
        (startReconnect cfg m0).2).st.reconnecting = false
    ∧ (fireN cfg true m0.st.maxReconnectAttempts
        (startReconnect cfg m0).2).pendingTimers = 0
    ∧ countCalled (fireN cfg true m0.st.maxReconnectAttempts
        (startReconnect cfg m0).2).events = m0.st.maxReconnectAttempts
    ∧ countFailed (fireN cfg true m0.st.maxReconnectAttempts
        (startReconnect cfg m0).2).events = 1
    ∧ (fireN cfg true m0.st.maxReconnectAttempts
        (startReconnect cfg m0).2).events.getLast?
        = some (Event.reconnectFailedEv m0.st.lastDisconnectReason)
    ∧ (∀ extra, fireN cfg true extra (fireN cfg true
        m0.st.maxReconnectAttempts (startReconnect cfg m0).2)
        = fireN cfg true m0.st.maxReconnectAttempts
            (startReconnect cfg m0).2) := by
  have hrun : fireN cfg true m0.st.maxReconnectAttempts
      (startReconnect cfg m0).2 = finalMachine cfg m0.st := by
    rw [startReconnect_eq_mid cfg m0 hrec hpend hev]
    have hsplit : m0.st.maxReconnectAttempts
        = (m0.st.maxReconnectAttempts - 1) + 1 := by omega
    rw [hsplit]
    exact fireN_mid cfg m0.st (m0.st.maxReconnectAttempts - 1) 0 (by omega)
  refine ⟨?_, ?_, ?_, ?_, ?_, ?_⟩
  · rw [hrun]; rfl
  · rw [hrun]; rfl
  · rw [hrun]
    simp only [finalMachine]
    rw [countCalled_append, countCalled_midTrace]
    have h2 : countCalled [Event.reconnectFnCalled,
        Event.reconnectFailedEv m0.st.lastDisconnectReason] = 1 := rfl
    rw [h2]
    omega
  · rw [hrun]
    simp only [finalMachine]
    rw [countFailed_append, countFailed_midTrace]
    rfl
  · rw [hrun]
    show (midTrace cfg m0.st (m0.st.maxReconnectAttempts - 1)
      ++ [Event.reconnectFnCalled,
          Event.reconnectFailedEv m0.st.lastDisconnectReason]).getLast?
      = _
    rw [show (midTrace cfg m0.st (m0.st.maxReconnectAttempts - 1)
      ++ [Event.reconnectFnCalled,
          Event.reconnectFailedEv m0.st.lastDisconnectReason])
      = ((midTrace cfg m0.st (m0.st.maxReconnectAttempts - 1)
          ++ [Event.reconnectFnCalled])
        ++ [Event.reconnectFailedEv m0.st.lastDisconnectReason]) by
      simp]
    exact List.getLast?_concat _
  · intro extra
    rw [hrun]
    exact fireN_no_pending cfg true (finalMachine cfg m0.st) rfl extra

/-- An idle supervisor about to start reconnecting, capped at 2 attempts. -/
def c5Start : ConnectionManager.Machine :=
  { st := { connected := false, reconnecting := false, reconnectAttempts := 0,
            maxReconnectAttempts := 2, reconnectDelay := 3000,
            lastDisconnectReason := some "ServiceUnavailable",
            hasReconnectFunc := false },
    pendingTimers := 0,
    events := [] }

open ConnectionManager in
/-- Witness for C5: two always-failing tries from `c5Start` end outside the
reconnecting state with exactly one terminal notification. -/
theorem c5_witness :
    (fireN appConfigReconnect true c5Start.st.maxReconnectAttempts
        (startReconnect appConfigReconnect c5Start).2).st.reconnecting = false
    ∧ countFailed (fireN appConfigReconnect true
        c5Start.st.maxReconnectAttempts
        (startReconnect appConfigReconnect c5Start).2).events = 1 :=
  let r := c5_exhausted_attempts_terminal appConfigReconnect c5Start
    (by decide) rfl rfl rfl
  ⟨r.1, r.2.2.2.1⟩

open SteamClientMod in
/-- C10: `addGame` returns false and leaves the farming list unchanged when
the parsed app id is already present, returns false when the id does not
parse as a number (leaving the list unchanged), and never introduces a
duplicate into the farming list. -/
theorem c10_addGame_no_duplicates (parsed : Option Int) (loggedOn : Bool)
    (games : List Int) :
    (∀ n, parsed = some n → n ∈ games →
      addGame parsed loggedOn games = (false, games))
    ∧ (parsed = none → addGame parsed loggedOn games = (false, games))
    ∧ (games.Nodup → (addGame parsed loggedOn games).2.Nodup) := by
  refine ⟨?_, ?_, ?_⟩
  · intro n hp hmem
    subst hp
    simp [addGame, hmem]
  · intro hp
    subst hp
    simp [addGame]
  · intro hnd
    match parsed with
    | none => simpa [addGame] using hnd
    | some n =>
      by_cases hmem : n ∈ games
      · simpa [addGame, hmem] using hnd
      · simp only [addGame, hmem, if_neg hmem]
        exact List.Nodup.append hnd (List.nodup_singleton n)
          (by simpa [List.disjoint_singleton] using hmem)

end Claims
